import Mathlib

/-!
Verification of the learning-spot scheduling core of the Spracherwerb
language-tutoring application.

The Python source is shallowly embedded: wall-clock timestamps and
durations (Python floats from `time.time()`) are modelled as exact
rationals `ℚ`, mutable objects become explicit state records, and
fallible operations return `Except` / `Option`.  Module-level mutable
class state (`LearningMemory`'s collections, `LearningSpotProfile`'s
interaction-history buffer) is passed explicitly.  `random.random()`
draws are passed in as explicit rational arguments.
-/

namespace Spracherwerb

/-- `LearningSpot` dataclass (`learning_spot_profile.py`).  The fields
`completed`, `end_time` do not appear in the dataclass declaration; they
are instance attributes assigned dynamically by
`LearningActivity.mark_completed`, so they are modelled as optional
fields that start unset. -/
structure LearningSpot where
  content : String
  timestamp : ℚ
  was_spoken : Bool := false
  interaction_type : String := "text"
  requires_response : Bool := false
  media_generated : Bool := false
  completed : Option Bool := none
  end_time : Option ℚ := none
deriving Repr, DecidableEq

/-- `LearningSpotSnapshot` dataclass (`learning_memory.py`). -/
structure LearningSpotSnapshot where
  creation_time : ℚ
  content : String
  was_spoken : Bool
  interaction_type : String
  requires_response : Bool
  media_generated : Bool
  activity_type : String
deriving Repr, DecidableEq

/-- `LearningSpotSnapshot.from_learning_spot`. -/
def LearningSpotSnapshot.from_learning_spot (spot : LearningSpot)
    (activity_type : String) : LearningSpotSnapshot :=
  { creation_time := spot.timestamp
    content := spot.content
    was_spoken := spot.was_spoken
    interaction_type := spot.interaction_type
    requires_response := spot.requires_response
    media_generated := spot.media_generated
    activity_type := activity_type }

/-! ### SessionContext (`session_context.py`) -/

/-- `UserAction` enum (`session_context.py`). -/
inductive UserAction where
  | NONE
  | PAUSE
  | RESUME
  | STOP
  | SKIP_ACTIVITY
  | CANCEL
deriving Repr, DecidableEq

/-- `SessionContext` dataclass (`session_context.py`).  The
`activities_completed` log entries (`{activity, results,
completion_time}` dicts) are modelled by their activity names; none of
the operations verified here read into them. -/
structure SessionContext where
  start_time : ℚ
  activities_completed : List String := []
  vocabulary_learned : List String := []
  grammar_points_covered : List String := []
  time_spent : ℚ := 0
  current_activity : Option String := none
  pause_time : Option ℚ := none
  end_time : Option ℚ := none
  total_time : Option ℚ := none
  last_user_action : UserAction := UserAction.NONE
  last_action_time : ℚ := 0
  is_paused : Bool := false
  is_cancelled : Bool := false
  skip_current_activity : Bool := false
deriving Repr, DecidableEq

/-- `SessionContext.update_action`; `now` stands for `time.time()`
(each `time.time()` call within one invocation is taken at the same
instant). -/
def SessionContext.update_action (s : SessionContext) (action : UserAction)
    (now : ℚ) : SessionContext :=
  let s := { s with last_user_action := action, last_action_time := now }
  match action with
  | .PAUSE => { s with is_paused := true, pause_time := some now }
  | .RESUME =>
    let s := { s with is_paused := false }
    match s.pause_time with
    | some pt =>
        { s with time_spent := s.time_spent + (now - pt), pause_time := none }
    | none => s
  | .STOP =>
      { s with end_time := some now, total_time := some (now - s.start_time) }
  | .SKIP_ACTIVITY => { s with skip_current_activity := true }
  | .CANCEL =>
      { s with is_cancelled := true, end_time := some now,
               total_time := some (now - s.start_time) }
  | .NONE => s

/-- `SessionContext.get_elapsed_time` (returns `self.total_time`, an
optional value, when `end_time` is set, hence the `Option` result). -/
def SessionContext.get_elapsed_time (s : SessionContext) (now : ℚ) :
    Option ℚ :=
  match s.end_time with
  | some _ => s.total_time
  | none =>
    if s.is_paused && s.pause_time.isSome then some s.time_spent
    else some (now - s.start_time)

/-! ### LearningMemory lookup (`learning_memory.py`) -/

/-- The scan loop inside `LearningMemory.get_previous_session_spot`:
starting from position `base_idx`, advance while the spot at the current
position was not created strictly before `creation_time`; return the
first position that was, or `none` once the list is exhausted. -/
def findBaseIdx (spots : List LearningSpot) (creation_time : ℚ)
    (base_idx : Nat) : Option Nat :=
  if h : base_idx < spots.length then
    if spots[base_idx].timestamp < creation_time then some base_idx
    else findBaseIdx spots creation_time (base_idx + 1)
  else none
termination_by spots.length - base_idx

/-- `LearningMemory.get_previous_session_spot`, with the class-level
`current_session_spots` list (most recent first) passed explicitly. -/
def get_previous_session_spot (current_session_spots : List LearningSpot)
    (idx : Nat) (creation_time : Option ℚ) : Option LearningSpot :=
  if current_session_spots.length ≤ idx then none
  else
    match creation_time with
    | none => current_session_spots[idx]?
    | some ct =>
      match findBaseIdx current_session_spots ct idx with
      | none => none
      | some base_idx =>
        let target_idx := base_idx + idx
        if target_idx ≥ current_session_spots.length then none
        else current_session_spots[target_idx]?

/-- Spec-side wording for C1: position `b` is the first position at or
after `idx` whose spot was created strictly before the cutoff `ct`. -/
def IsFirstQualifying (spots : List LearningSpot) (idx : Nat) (ct : ℚ)
    (b : Nat) : Prop :=
  idx ≤ b ∧ (∃ s, spots[b]? = some s ∧ s.timestamp < ct) ∧
    ∀ j s, idx ≤ j → j < b → spots[j]? = some s → ¬ s.timestamp < ct

/-- A small concrete most-recent-first session-spot list. -/
def c1Spots : List LearningSpot :=
  [{ content := "a", timestamp := 10 },
   { content := "b", timestamp := 3 },
   { content := "c", timestamp := 2 }]

/-! ### LearningSpotProfile (`learning_spot_profile.py`)

The class attributes are read from `config.learning_config`, which in
`utils/config.py` contains none of these keys, so the documented
defaults apply. -/

def chance_feedback_after_response : ℚ := 7 / 10

def chance_explanation_before_question : ℚ := 1 / 2

def min_seconds_between_spots : ℚ := 5

def _max_history : Nat := 100

/-- `config.enable_visual_learning` default. -/
def enable_visual_learning : Bool := true

/-- `LearningSpotProfile` instance state.  The two lookup callbacks are
late-bound capabilities; `none` models a callback that was not set. -/
structure LearningSpotProfile where
  activity_type : String
  previous_spot : Option LearningSpot := none
  current_content : Option String := none
  creation_time : ℚ
  preparation_time : Option ℚ := none
  get_previous_spot_callback : Option (Nat → ℚ → Option LearningSpot) := none
  get_next_content_callback : Option (Unit → Option String) := none
  is_first_interaction : Bool := false
  provide_introduction : Bool := false
  provide_feedback : Bool := false
  provide_explanation : Bool := false
  generate_media : Bool := false
  is_prepared : Bool := false
  has_already_spoken : Bool := false

/-- `LearningSpotProfile._should_generate_media`; `r` is the
`random.random()` draw taken in whichever branch executes. -/
def _should_generate_media (activity_type : String) (r : ℚ) : Bool :=
  if activity_type = "vocabulary_builder" ∨ activity_type = "cultural_context" then
    decide (r < 4 / 5)
  else if activity_type = "grammar_practice" ∨
      activity_type = "situational_dialogues" then
    decide (r < 1 / 2)
  else
    decide (r < 3 / 10)

/-- `LearningSpotProfile.__init__`.  `hist` is the module-level
`_interaction_history` buffer before the construction, returned
updated; `now` stands for `time.time()`; `r_feedback`, `r_explanation`
and `r_media` are the `random.random()` draws consumed by the three
probabilistic decisions. -/
def LearningSpotProfile.init (activity_type : String)
    (previous_spot : Option LearningSpot) (current_content : Option String)
    (get_previous_spot_callback : Option (Nat → ℚ → Option LearningSpot))
    (get_next_content_callback : Option (Unit → Option String))
    (hist : List LearningSpot) (now : ℚ)
    (r_feedback r_explanation r_media : ℚ) :
    LearningSpotProfile × List LearningSpot :=
  let hist :=
    match current_content with
    | some s =>
      if s != "" && (hist.isEmpty || hist.getLast?.map (·.content) != some s) then
        let hist := hist ++ [{ content := s, timestamp := now }]
        if hist.length > _max_history then hist.drop (hist.length - _max_history)
        else hist
      else hist
    | none => hist
  let is_first_interaction := previous_spot.isNone && hist.isEmpty
  let provide_introduction := is_first_interaction
  let provide_feedback :=
    match previous_spot with
    | some p => p.requires_response &&
        decide (r_feedback < chance_feedback_after_response)
    | none => false
  let provide_explanation :=
    current_content.isSome &&
      decide (r_explanation < chance_explanation_before_question)
  let generate_media :=
    current_content.isSome && enable_visual_learning &&
      _should_generate_media activity_type r_media
  ({ activity_type := activity_type
     previous_spot := previous_spot
     current_content := current_content
     creation_time := now
     preparation_time := none
     get_previous_spot_callback := get_previous_spot_callback
     get_next_content_callback := get_next_content_callback
     is_first_interaction := is_first_interaction
     provide_introduction := provide_introduction
     provide_feedback := provide_feedback
     provide_explanation := provide_explanation
     generate_media := generate_media
     is_prepared := false
     has_already_spoken := false }, hist)

/-- `LearningSpotProfile.get_previous_spot`: raises a plain `Exception`
when the callback was not set; otherwise calls the callback with the
index and this profile's creation time. -/
def LearningSpotProfile.get_previous_spot (p : LearningSpotProfile)
    (idx : Nat) : Except String (Option LearningSpot) :=
  match p.get_previous_spot_callback with
  | none => .error "Previous spot callback was not set properly"
  | some cb => .ok (cb idx p.creation_time)

/-- `LearningSpotProfile.get_next_content`: returns `None` (no error)
when the callback was not set. -/
def LearningSpotProfile.get_next_content (p : LearningSpotProfile) :
    Except String (Option String) :=
  match p.get_next_content_callback with
  | none => .ok none
  | some cb => .ok (cb ())

/-- Loop of `LearningSpotProfile.get_last_spoken_spot`.  The returned
`Nat` counts the calls made to the lookup capability. -/
def LearningSpotProfile.get_last_spoken_spot_aux (p : LearningSpotProfile)
    (max_iterations idx calls : Nat) :
    Except String (Option LearningSpot × Nat) :=
  match p.get_previous_spot idx with
  | .error e => .error e
  | .ok none => .ok (none, calls + 1)
  | .ok (some spot) =>
    if spot.was_spoken then .ok (some spot, calls + 1)
    else if h : max_iterations ≤ idx + 1 then .ok (none, calls + 1)
    else p.get_last_spoken_spot_aux max_iterations (idx + 1) (calls + 1)
termination_by max_iterations - idx
decreasing_by omega

/-- `LearningSpotProfile.get_last_spoken_spot` (`max_iterations = 100`),
instrumented with the number of capability calls made. -/
def LearningSpotProfile.get_last_spoken_spot (p : LearningSpotProfile) :
    Except String (Option LearningSpot × Nat) :=
  p.get_last_spoken_spot_aux 100 0 0

/-- `LearningSpotProfile.last_spot_more_than_seconds`; `now` stands for
`time.time()`. -/
def LearningSpotProfile.last_spot_more_than_seconds (p : LearningSpotProfile)
    (now seconds : ℚ) : Except String Bool :=
  match p.get_last_spoken_spot with
  | .error e => .error e
  | .ok (none, _) => .ok true
  | .ok (some last, _) => .ok (decide (now - last.timestamp > seconds))

/-- `LearningSpotProfile.is_going_to_say_something`. -/
def LearningSpotProfile.is_going_to_say_something (p : LearningSpotProfile)
    (now : ℚ) : Except String Bool :=
  if p.provide_introduction || p.provide_feedback || p.provide_explanation then
    .ok true
  else
    match p.last_spot_more_than_seconds now min_seconds_between_spots with
    | .error e => .error e
    | .ok no_time_restriction =>
      if !no_time_restriction then .ok false else .ok true

/-- A profile whose lookup capability always yields one spoken spot of
timestamp `T`, with all three decision booleans false. -/
def throttleProfile (T : ℚ) : LearningSpotProfile :=
  { activity_type := "vocabulary_builder"
    creation_time := T
    get_previous_spot_callback :=
      some fun _ _ => some { content := "c", timestamp := T, was_spoken := true } }

/-- A profile constructed without either lookup callback. -/
def c8Profile : LearningSpotProfile :=
  { activity_type := "vocabulary_builder", creation_time := 0 }

/-! ### LearningMemory bounded store (`learning_memory.py`) -/

def max_memory_size : Nat := 1000

def max_historical_snapshots : Nat := 5000

/-- `_historical_snapshots` modelled as an insertion-ordered association
list, matching the insertion-order semantics of a Python dict. -/
abbrev SnapshotDict := List (ℚ × LearningSpotSnapshot)

/-- `dict.keys()`, in insertion order. -/
def dictKeys (d : SnapshotDict) : List ℚ := d.map Prod.fst

/-- `dict[k] = v`: overwrite in place when the key exists, append
otherwise. -/
def dictSet (d : SnapshotDict) (k : ℚ) (v : LearningSpotSnapshot) :
    SnapshotDict :=
  if k ∈ dictKeys d then d.map fun kv => if kv.1 = k then (k, v) else kv
  else d ++ [(k, v)]

/-- Python's `xs[:-m]` for a natural `m`: everything but the last `m`
elements, except that `xs[:-0]` is `xs[:0] = []`. -/
def pyDropLast (xs : List ℚ) (m : Nat) : List ℚ :=
  if m = 0 then [] else xs.take (xs.length - m)

/-- `LearningMemory._add_historical_snapshot`, over an explicit dict and
cap (the class attribute `max_historical_snapshots`).  `sorted(keys)` is
modelled by insertion sort, and deleting each key in `oldest_times` by a
filter. -/
def _add_historical_snapshot (max_hist : Nat) (spot : LearningSpot)
    (activity_type : String) (d : SnapshotDict) : SnapshotDict :=
  let d := dictSet d spot.timestamp
    (LearningSpotSnapshot.from_learning_spot spot activity_type)
  if d.length > max_hist then
    let oldest_times := pyDropLast (List.insertionSort (· ≤ ·) (dictKeys d))
      max_hist
    d.filter fun kv => decide (kv.1 ∉ oldest_times)
  else d

/-- The class-level spot store of `LearningMemory`: the bounded
most-recent-first `all_learning_spots` list and the
`_historical_snapshots` dict. -/
structure MemoryState where
  all_learning_spots : List LearningSpot := []
  historical_snapshots : SnapshotDict := []
deriving Repr, DecidableEq

/-- `LearningMemory.update_all_learning_spots`, with the class
attributes passed explicitly (`max_mem = max_memory_size`,
`max_hist = max_historical_snapshots`). -/
def update_all_learning_spots (max_mem max_hist : Nat) (spot : LearningSpot)
    (activity_type : String) (s : MemoryState) : MemoryState :=
  let all := spot :: s.all_learning_spots
  if all.length > max_mem then
    { all_learning_spots := all.take max_mem
      historical_snapshots :=
        (all.drop max_mem).foldl
          (fun d sp => _add_historical_snapshot max_hist sp activity_type d)
          s.historical_snapshots }
  else { s with all_learning_spots := all }

/-- A sequence of `update_all_learning_spots` inserts starting from the
empty store. -/
def runUpdates (max_mem max_hist : Nat) (activity_type : String)
    (spots : List LearningSpot) : MemoryState :=
  spots.foldl
    (fun s sp => update_all_learning_spots max_mem max_hist sp activity_type s)
    {}

/-- The last `n` elements of a list (spec-side: "the most recent `n`"
of a chronologically ordered list). -/
def takeLast (n : Nat) (xs : List α) : List α := xs.drop (xs.length - n)

/-! ### LearningProgression (`learning_progression.py`) -/

/-- `ActivityType` enum. -/
inductive ActivityType where
  | VOCABULARY_BUILDER
  | GRAMMAR_PRACTICE
  | CONVERSATION_PRACTICE
  | LISTENING_COMPREHENSION
  | WRITING_PRACTICE
  | CULTURAL_CONTEXT
  | PRONUNCIATION_GUIDE
  | IDIOMS_AND_EXPRESSIONS
  | READING_COMPREHENSION
  | SITUATIONAL_DIALOGUES
  | VISUAL_VOCABULARY
deriving Repr, DecidableEq

/-- `.value` of each `ActivityType` member. -/
def ActivityType.val : ActivityType → String
  | .VOCABULARY_BUILDER => "vocabulary_builder"
  | .GRAMMAR_PRACTICE => "grammar_practice"
  | .CONVERSATION_PRACTICE => "conversation_practice"
  | .LISTENING_COMPREHENSION => "listening_comprehension"
  | .WRITING_PRACTICE => "writing_practice"
  | .CULTURAL_CONTEXT => "cultural_context"
  | .PRONUNCIATION_GUIDE => "pronunciation_guide"
  | .IDIOMS_AND_EXPRESSIONS => "idioms_and_expressions"
  | .READING_COMPREHENSION => "reading_comprehension"
  | .SITUATIONAL_DIALOGUES => "situational_dialogues"
  | .VISUAL_VOCABULARY => "visual_vocabulary"

/-- `LearningActivity` dataclass, after `__post_init__` has normalised
`user_responses` to a list (its `start_time` default is left optional
here; the claims below set it explicitly). -/
structure LearningActivity where
  activity_type : ActivityType
  content : String
  expected_responses : List String
  difficulty_level : Int
  requires_media : Bool
  media_generated : Bool := false
  completed : Bool := false
  user_responses : List String := []
  start_time : Option ℚ := none
  end_time : Option ℚ := none
  learning_spot : Option LearningSpot := none
deriving Repr, DecidableEq

/-- `LearningActivity.mark_completed` (the assignments to
`learning_spot.completed` / `learning_spot.end_time` create dynamic
attributes on the spot, modelled by `LearningSpot`'s optional
fields). -/
def LearningActivity.mark_completed (a : LearningActivity) (now : ℚ) :
    LearningActivity :=
  let a := { a with completed := true, end_time := some now }
  match a.learning_spot with
  | some spot =>
    let spot := { spot with completed := some true, end_time := some now }
    { a with learning_spot := some spot }
  | none => a

/-- A Python value passed as a keyword argument. -/
inductive PyVal where
  | pnone
  | pstr (s : String)
  | prat (q : ℚ)
  | pbool (b : Bool)
deriving Repr, DecidableEq

/-- Parameter names accepted by the `LearningSpot` dataclass
constructor (`learning_spot_profile.py`). -/
def learningSpotParams : List String :=
  ["content", "timestamp", "was_spoken", "interaction_type",
   "requires_response", "media_generated"]

def kwLookup (kwargs : List (String × PyVal)) (name : String) :
    Option PyVal :=
  (kwargs.find? fun kv => kv.1 == name).map Prod.snd

def kwStr (kwargs : List (String × PyVal)) (name dflt : String) : String :=
  match kwLookup kwargs name with
  | some (.pstr s) => s
  | _ => dflt

def kwRat (kwargs : List (String × PyVal)) (name : String) (dflt : ℚ) : ℚ :=
  match kwLookup kwargs name with
  | some (.prat q) => q
  | _ => dflt

def kwBool (kwargs : List (String × PyVal)) (name : String) (dflt : Bool) :
    Bool :=
  match kwLookup kwargs name with
  | some (.pbool b) => b
  | _ => dflt

/-- The Python keyword call `LearningSpot(**kwargs)`: CPython raises
`TypeError` on an unexpected keyword argument, or on a missing required
argument (`content`, `timestamp`), before filling the dataclass fields
(the runtime performs no type check on the values themselves). -/
def call_LearningSpot (kwargs : List (String × PyVal)) :
    Except String LearningSpot :=
  match kwargs.find? fun kv => !(learningSpotParams.contains kv.1) with
  | some kv =>
    .error ("TypeError: got an unexpected keyword argument " ++ kv.1)
  | none =>
    if (kwLookup kwargs "content").isNone ∨
        (kwLookup kwargs "timestamp").isNone then
      .error "TypeError: missing required positional argument"
    else
      .ok { content := kwStr kwargs "content" ""
            timestamp := kwRat kwargs "timestamp" 0
            was_spoken := kwBool kwargs "was_spoken" false
            interaction_type := kwStr kwargs "interaction_type" "text"
            requires_response := kwBool kwargs "requires_response" false
            media_generated := kwBool kwargs "media_generated" false }

/-- `LearningProgression` instance state, together with the class-level
`LearningMemory` spot store its methods mutate. -/
structure LearningProgression where
  completed_activities : List LearningActivity := []
  current_activity : Option LearningActivity := none
  upcoming_activities : List LearningActivity := []
  activity_history : List LearningActivity := []
  learning_memory : MemoryState := {}
deriving Repr, DecidableEq

/-- Result of `LearningProgression.start_next_activity`: either the
updated progression with the returned activity, or the uncaught
`TypeError` raised while constructing the `LearningSpot`, together with
the state as already mutated at the raise (the front activity was
popped, made current, and its start time set before the constructor
call). -/
inductive StartNextResult where
  | ok (p : LearningProgression) (ret : Option LearningActivity)
  | typeError (e : String) (p : LearningProgression)
deriving Repr, DecidableEq

/-- `LearningProgression.start_next_activity`.  The `LearningSpot`
construction is the literal keyword call from the source:
`LearningSpot(content=..., activity_type=..., requires_response=
bool(expected_responses), media_generated=...)`. -/
def start_next_activity (p : LearningProgression) (now : ℚ) :
    StartNextResult :=
  match p.upcoming_activities with
  | [] => .ok p none
  | act :: rest =>
    let act := { act with start_time := some now }
    let p :=
      { p with upcoming_activities := rest, current_activity := some act }
    match call_LearningSpot
        [("content", .pstr act.content),
         ("activity_type", .pstr act.activity_type.val),
         ("requires_response", .pbool (decide (act.expected_responses ≠ []))),
         ("media_generated", .pbool act.media_generated)] with
    | .error e => .typeError e p
    | .ok spot =>
      let act := { act with learning_spot := some spot }
      .ok { p with current_activity := some act } (some act)

/-- `LearningProgression.complete_current_activity`.  Returns `none`
when the completed activity carries no `learning_spot`: the Python code
would push `None` into the `List[LearningSpot]`-typed store, a state
outside this embedding. -/
def complete_current_activity (p : LearningProgression) (now : ℚ) :
    Option LearningProgression :=
  match p.current_activity with
  | none => some p
  | some act =>
    let act := act.mark_completed now
    match act.learning_spot with
    | none => none
    | some spot =>
      some { p with
        completed_activities := p.completed_activities ++ [act]
        activity_history := p.activity_history ++ [act]
        learning_memory :=
          update_all_learning_spots max_memory_size max_historical_snapshots
            spot act.activity_type.val p.learning_memory
        current_activity := none }

/-- The list comprehension `[self.upcoming_activities[i] for i in
new_order]`; `none` models the `IndexError` raised on an out-of-range
index. -/
def gatherByIndex (queue : List LearningActivity) :
    List Nat → Option (List LearningActivity)
  | [] => some []
  | i :: rest =>
    match queue[i]? with
    | none => none
    | some a => (gatherByIndex queue rest).map (a :: ·)

/-- Outcome of `LearningProgression.reorder_activities`: a length
mismatch is logged (`Utils.log_red`) and rejected, leaving the queue
unchanged; otherwise the queue is replaced; an out-of-range index
raises `IndexError`. -/
inductive ReorderResult where
  | rejected (queue : List LearningActivity)
  | ok (queue : List LearningActivity)
  | indexError
deriving Repr, DecidableEq

/-- `LearningProgression.reorder_activities`, acting on the
`upcoming_activities` queue. -/
def reorder_activities (queue : List LearningActivity)
    (new_order : List Nat) : ReorderResult :=
  if new_order.length ≠ queue.length then .rejected queue
  else
    match gatherByIndex queue new_order with
    | some reordered => .ok reordered
    | none => .indexError

/-- A concrete activity used by the progression claims. -/
def demoActivity (content : String) (responses : List String) :
    LearningActivity :=
  { activity_type := .VOCABULARY_BUILDER
    content := content
    expected_responses := responses
    difficulty_level := 1
    requires_media := false }

/-- Seven spots with strictly increasing creation times. -/
def c4Spots : List LearningSpot :=
  [{ content := "s0", timestamp := 0 }, { content := "s1", timestamp := 1 },
   { content := "s2", timestamp := 2 }, { content := "s3", timestamp := 3 },
   { content := "s4", timestamp := 4 }, { content := "s5", timestamp := 5 },
   { content := "s6", timestamp := 6 }]

end Spracherwerb

namespace Spracherwerb

/-! ## Theorems -/

/-! ### Characterization of the `get_previous_session_spot` scan -/

theorem findBaseIdx_some (spots : List LearningSpot) (ct : ℚ) :
    ∀ i b, findBaseIdx spots ct i = some b → IsFirstQualifying spots i ct b := by
  suffices H : ∀ n i b, spots.length - i ≤ n →
      findBaseIdx spots ct i = some b → IsFirstQualifying spots i ct b from
    fun i b h => H (spots.length - i) i b le_rfl h
  intro n
  induction n with
  | zero =>
    intro i b hle h
    rw [findBaseIdx] at h
    rw [dif_neg (by omega)] at h
    exact absurd h (by simp)
  | succ n ih =>
    intro i b hle h
    rw [findBaseIdx] at h
    by_cases hi : i < spots.length
    · rw [dif_pos hi] at h
      by_cases hts : spots[i].timestamp < ct
      · rw [if_pos hts] at h
        obtain rfl : i = b := by simpa using h
        refine ⟨le_rfl, ⟨spots[i], List.getElem?_eq_getElem hi, hts⟩, ?_⟩
        intro j s hij hji
        omega
      · rw [if_neg hts] at h
        obtain ⟨hib, hex, hmin⟩ := ih (i + 1) b (by omega) h
        refine ⟨by omega, hex, ?_⟩
        intro j s hij hjb hget
        rcases Nat.eq_or_lt_of_le hij with rfl | hij'
        · rw [List.getElem?_eq_getElem hi] at hget
          obtain rfl : spots[i] = s := by simpa using hget
          exact hts
        · exact hmin j s hij' hjb hget
    · rw [dif_neg hi] at h
      exact absurd h (by simp)

theorem findBaseIdx_none (spots : List LearningSpot) (ct : ℚ) :
    ∀ i, findBaseIdx spots ct i = none →
      ∀ j s, i ≤ j → spots[j]? = some s → ¬ s.timestamp < ct := by
  suffices H : ∀ n i, spots.length - i ≤ n → findBaseIdx spots ct i = none →
      ∀ j s, i ≤ j → spots[j]? = some s → ¬ s.timestamp < ct from
    fun i h => H (spots.length - i) i le_rfl h
  intro n
  induction n with
  | zero =>
    intro i hle _ j s hij hget
    have hj : j < spots.length := by
      by_contra hj
      rw [List.getElem?_eq_none (by omega)] at hget
      exact absurd hget (by simp)
    omega
  | succ n ih =>
    intro i hle h j s hij hget
    rw [findBaseIdx] at h
    by_cases hi : i < spots.length
    · rw [dif_pos hi] at h
      by_cases hts : spots[i].timestamp < ct
      · rw [if_pos hts] at h
        exact absurd h (by simp)
      · rw [if_neg hts] at h
        rcases Nat.eq_or_lt_of_le hij with rfl | hij'
        · rw [List.getElem?_eq_getElem hi] at hget
          obtain rfl : spots[i] = s := by simpa using hget
          exact hts
        · exact ih (i + 1) (by omega) h j s hij' hget
    · have hj : j < spots.length := by
        by_contra hj
        rw [List.getElem?_eq_none (by omega)] at hget
        exact absurd hget (by simp)
      omega

theorem IsFirstQualifying.unique {spots : List LearningSpot} {idx : Nat}
    {ct : ℚ} {b b' : Nat} (h1 : IsFirstQualifying spots idx ct b)
    (h2 : IsFirstQualifying spots idx ct b') : b = b' := by
  obtain ⟨hib, ⟨s, hs, hlt⟩, hmin⟩ := h1
  obtain ⟨hib', ⟨s', hs', hlt'⟩, hmin'⟩ := h2
  rcases lt_trichotomy b b' with h | h | h
  · exact absurd hlt (hmin' b s hib h hs)
  · exact h
  · exact absurd hlt' (hmin b' s' hib' h hs')

/-- C1: `get_previous_session_spot` with no cutoff returns the spot at
position `idx` of the most-recent-first list (`none` out of range); with
a cutoff `ct` it scans forward from position `idx` for the first
position `b` created strictly before `ct`, returns `none` when no such
position exists, and otherwise returns the spot at position `b + idx`
(`none` when out of range) — `idx` seeds the scan and is applied again
as an offset. -/
theorem get_previous_session_spot_contract
    (spots : List LearningSpot) (idx : Nat) :
    (get_previous_session_spot spots idx none = spots[idx]?) ∧
    ∀ ct : ℚ,
      ((¬ ∃ b, IsFirstQualifying spots idx ct b) →
        get_previous_session_spot spots idx (some ct) = none) ∧
      ∀ b, IsFirstQualifying spots idx ct b →
        get_previous_session_spot spots idx (some ct) = spots[b + idx]? := by
  refine ⟨?_, fun ct => ⟨?_, ?_⟩⟩
  · rw [get_previous_session_spot]
    by_cases hlen : spots.length ≤ idx
    · rw [if_pos hlen, List.getElem?_eq_none hlen]
    · rw [if_neg hlen]
  · intro hno
    rw [get_previous_session_spot]
    by_cases hlen : spots.length ≤ idx
    · rw [if_pos hlen]
    · rw [if_neg hlen]
      cases hfb : findBaseIdx spots ct idx with
      | none => rfl
      | some b => exact absurd ⟨b, findBaseIdx_some spots ct idx b hfb⟩ hno
  · intro b hb
    by_cases hlen : spots.length ≤ idx
    · obtain ⟨hib, ⟨s, hs, _⟩, _⟩ := hb
      have hblen : b < spots.length := by
        by_contra hc
        rw [List.getElem?_eq_none (by omega)] at hs
        exact absurd hs (by simp)
      omega
    · rw [get_previous_session_spot, if_neg hlen]
      cases hfb : findBaseIdx spots ct idx with
      | none =>
        obtain ⟨hib, ⟨s, hs, hlt⟩, _⟩ := hb
        exact absurd hlt (findBaseIdx_none spots ct idx hfb b s hib hs)
      | some b' =>
        have hbb : b' = b := (findBaseIdx_some spots ct idx b' hfb).unique hb
        rw [hbb]
        show (if b + idx ≥ spots.length then none else spots[b + idx]?) =
          spots[b + idx]?
        by_cases htg : b + idx ≥ spots.length
        · rw [if_pos htg, List.getElem?_eq_none htg]
        · rw [if_neg htg]

/-- C1 witness: on `c1Spots` with `idx = 1` and cutoff `5`, the scan
finds base position `1` (timestamp `3 < 5`) and returns the spot at
position `1 + 1 = 2`. -/
theorem get_previous_session_spot_contract_witness :
    (1 : Nat) ≤ 1 ∧
      get_previous_session_spot c1Spots 1 (some 5) =
        some { content := "c", timestamp := 2 } := by
  refine ⟨le_rfl, ?_⟩
  have h := ((get_previous_session_spot_contract c1Spots 1).2 5).2 1
    ⟨le_rfl, ⟨{ content := "b", timestamp := 3 }, by decide, by decide⟩,
      fun j s h1 h2 _ => absurd (h1.trans_lt h2) (lt_irrefl _)⟩
  rw [h]
  decide

/-- C6: from a `SessionContext` started at `T0` with `time_spent = 0`,
PAUSE at `T0+10` then RESUME at `T0+40` accumulates the pause duration:
`time_spent = 30` and `pause_time` is cleared; STOP at `T0+50` sets
`end_time` and `total_time = 50`; and `get_elapsed_time` returns
`total_time` once `end_time` is set, `time_spent` while paused, and
`now - start_time` otherwise. -/
theorem session_elapsed_time_round_trip (T0 now : ℚ) :
    let s0 : SessionContext := { start_time := T0, last_action_time := T0 }
    let s1 := s0.update_action .PAUSE (T0 + 10)
    let s2 := s1.update_action .RESUME (T0 + 40)
    let s3 := s2.update_action .STOP (T0 + 50)
    s2.time_spent = 30 ∧ s2.pause_time = none ∧
      s3.end_time = some (T0 + 50) ∧ s3.total_time = some 50 ∧
      s3.get_elapsed_time now = s3.total_time ∧
      s1.is_paused = true ∧ s1.get_elapsed_time now = some s1.time_spent ∧
      s0.get_elapsed_time now = some (now - T0) := by
  simp only [SessionContext.update_action, SessionContext.get_elapsed_time]
  norm_num

/-! ### LearningSpotProfile theorems -/

theorem get_last_spoken_spot_aux_exhausts (p : LearningSpotProfile)
    (cb : Nat → ℚ → Option LearningSpot)
    (hcb : p.get_previous_spot_callback = some cb)
    (hspots : ∀ i t, ∃ s, cb i t = some s ∧ s.was_spoken = false) :
    ∀ n max_iterations idx calls, max_iterations - idx ≤ n →
      idx < max_iterations →
      p.get_last_spoken_spot_aux max_iterations idx calls =
        .ok (none, calls + (max_iterations - idx)) := by
  intro n
  induction n with
  | zero => intro m idx calls hle hlt; omega
  | succ n ih =>
    intro m idx calls hle hlt
    obtain ⟨s, hs, hws⟩ := hspots idx p.creation_time
    rw [LearningSpotProfile.get_last_spoken_spot_aux,
      LearningSpotProfile.get_previous_spot, hcb]
    simp only [hs, hws]
    by_cases hstop : m ≤ idx + 1
    · rw [dif_pos hstop]
      have : m - idx = 1 := by omega
      rw [this, if_neg (by simp)]
    · rw [dif_neg hstop]
      rw [ih m (idx + 1) (calls + 1) (by omega) (by omega)]
      have : calls + 1 + (m - (idx + 1)) = calls + (m - idx) := by omega
      rw [this, if_neg (by simp)]

/-- C5: with a lookup capability that always returns a non-null,
never-spoken spot, `get_last_spoken_spot` (iteration cap 100) returns
`None` after exactly 100 calls to the capability — a normal "not found"
result, not an error. -/
theorem get_last_spoken_spot_fail_safe (p : LearningSpotProfile)
    (cb : Nat → ℚ → Option LearningSpot)
    (hcb : p.get_previous_spot_callback = some cb)
    (hspots : ∀ i t, ∃ s, cb i t = some s ∧ s.was_spoken = false) :
    p.get_last_spoken_spot = .ok (none, 100) := by
  rw [LearningSpotProfile.get_last_spoken_spot,
    get_last_spoken_spot_aux_exhausts p cb hcb hspots 100 100 0 0 (by omega)
      (by omega)]

/-- C5 witness: a capability returning the same unspoken spot at every
index; the scan makes exactly 100 calls and reports "not found". -/
theorem get_last_spoken_spot_fail_safe_witness :
    ({ activity_type := "vocabulary_builder", creation_time := 0,
       get_previous_spot_callback :=
         some fun _ _ => some { content := "x", timestamp := 0 } } :
      LearningSpotProfile).get_last_spoken_spot = .ok (none, 100) :=
  get_last_spoken_spot_fail_safe _
    (fun _ _ => some { content := "x", timestamp := 0 }) rfl
    (fun _ _ => ⟨{ content := "x", timestamp := 0 }, rfl, rfl⟩)

/-- C2: `is_going_to_say_something` returns true immediately when any
of the introduction/feedback/explanation booleans is set; otherwise it
returns true iff strictly more than `min_seconds_between_spots = 5`
seconds elapsed since the last actually-spoken spot (true when none
exists); in particular with a last-spoken spot at `T` it returns False
at `T+3` and True at `T+6`. -/
theorem is_going_to_say_something_throttle :
    (∀ (p : LearningSpotProfile) (now : ℚ),
      (p.provide_introduction || p.provide_feedback ||
        p.provide_explanation) = true →
      p.is_going_to_say_something now = .ok true) ∧
    (∀ (p : LearningSpotProfile) (now : ℚ) (res : Option LearningSpot × Nat),
      p.provide_introduction = false → p.provide_feedback = false →
      p.provide_explanation = false →
      p.get_last_spoken_spot = .ok res →
      p.is_going_to_say_something now =
        .ok (match res.1 with
             | none => true
             | some last =>
               decide (now - last.timestamp > min_seconds_between_spots))) ∧
    (∀ T : ℚ,
      (throttleProfile T).is_going_to_say_something (T + 3) = .ok false ∧
      (throttleProfile T).is_going_to_say_something (T + 6) = .ok true) := by
  have hbody : ∀ (p : LearningSpotProfile) (now : ℚ)
      (res : Option LearningSpot × Nat),
      p.provide_introduction = false → p.provide_feedback = false →
      p.provide_explanation = false →
      p.get_last_spoken_spot = .ok res →
      p.is_going_to_say_something now =
        .ok (match res.1 with
             | none => true
             | some last =>
               decide (now - last.timestamp > min_seconds_between_spots)) := by
    intro p now res h1 h2 h3 hres
    rw [LearningSpotProfile.is_going_to_say_something, h1, h2, h3]
    rw [if_neg (by simp)]
    rw [LearningSpotProfile.last_spot_more_than_seconds, hres]
    obtain ⟨last, n⟩ := res
    cases last with
    | none => rfl
    | some s =>
      show (if !decide (now - s.timestamp > min_seconds_between_spots) then
          Except.ok false else Except.ok true) = _
      by_cases hgt : now - s.timestamp > min_seconds_between_spots
      · simp [hgt]
      · simp [hgt]
  refine ⟨?_, hbody, ?_⟩
  · intro p now h
    rw [LearningSpotProfile.is_going_to_say_something, if_pos h]
  · intro T
    have hlast : (throttleProfile T).get_last_spoken_spot =
        .ok (some { content := "c", timestamp := T, was_spoken := true }, 1) := by
      rw [LearningSpotProfile.get_last_spoken_spot,
        LearningSpotProfile.get_last_spoken_spot_aux,
        LearningSpotProfile.get_previous_spot]
      rfl
    constructor
    · rw [hbody (throttleProfile T) (T + 3) _ rfl rfl rfl hlast]
      have : (T + 3 - T : ℚ) = 3 := by ring
      simp only [this, min_seconds_between_spots]
      norm_num
    · rw [hbody (throttleProfile T) (T + 6) _ rfl rfl rfl hlast]
      have : (T + 6 - T : ℚ) = 6 := by ring
      simp only [this, min_seconds_between_spots]
      norm_num

/-- C2 witness: a profile with `provide_introduction` set speaks
immediately, and the concrete throttle scenario at `T = 0` suppresses
speech at `0 + 3` seconds. -/
theorem is_going_to_say_something_throttle_witness :
    ({ activity_type := "vocabulary_builder", creation_time := 0,
       provide_introduction := true } :
        LearningSpotProfile).is_going_to_say_something 0 = .ok true ∧
    (throttleProfile 0).is_going_to_say_something (0 + 3) = .ok false :=
  ⟨is_going_to_say_something_throttle.1 _ 0 rfl,
   (is_going_to_say_something_throttle.2.2 0).1⟩

/-- C3 counterexample: constructing with `previous_spot = None` on an
empty interaction-history buffer but with a non-empty `current_content`
first records that content into the buffer, so `is_first_interaction`
and `provide_introduction` come out `False` — the claim's "regardless
of the current_content argument" fails. -/
theorem first_interaction_counterexample :
    ((LearningSpotProfile.init "vocabulary_builder" none (some "hallo")
        none none [] 0 0 0 0).1.is_first_interaction = false) ∧
    ((LearningSpotProfile.init "vocabulary_builder" none (some "hallo")
        none none [] 0 0 0 0).1.provide_introduction = false) :=
  ⟨rfl, rfl⟩

/-- C3 amended: constructing with `previous_spot = None` on an empty
interaction-history buffer yields `is_first_interaction = True` and
`provide_introduction = True` regardless of the random draws, provided
`current_content` is absent or empty (Python-falsy); a non-empty
`current_content` is appended to the buffer first and makes both
`False`. -/
theorem first_interaction_amended (activity_type : String)
    (current_content : Option String)
    (cb1 : Option (Nat → ℚ → Option LearningSpot))
    (cb2 : Option (Unit → Option String)) (now r1 r2 r3 : ℚ)
    (hc : current_content = none ∨ current_content = some "") :
    ((LearningSpotProfile.init activity_type none current_content cb1 cb2
        [] now r1 r2 r3).1.is_first_interaction = true) ∧
    ((LearningSpotProfile.init activity_type none current_content cb1 cb2
        [] now r1 r2 r3).1.provide_introduction = true) := by
  rcases hc with rfl | rfl <;> exact ⟨rfl, rfl⟩

/-- C3 witness: the amended statement at a concrete construction with
no content. -/
theorem first_interaction_amended_witness :
    ((LearningSpotProfile.init "vocabulary_builder" none none none none
        [] 0 0 0 0).1.is_first_interaction = true) ∧
    ((LearningSpotProfile.init "vocabulary_builder" none none none none
        [] 0 0 0 0).1.provide_introduction = true) :=
  first_interaction_amended "vocabulary_builder" none none none 0 0 0 0
    (Or.inl rfl)

/-- C8 counterexample: with no callback set, `get_next_content` does
not fail — it returns `None` — contradicting the claim that it fails
with a `ConfigurationError`. -/
theorem callback_not_set_counterexample :
    c8Profile.get_next_content_callback = none ∧
    c8Profile.get_next_content = .ok none :=
  ⟨rfl, rfl⟩

/-- C8 amended: `get_previous_spot` with an unset callback raises a
plain `Exception("Previous spot callback was not set properly")` — the
codebase defines no `ConfigurationError` type — and the failure is
surfaced to the caller uncaught; `get_next_content` with an unset
callback does not fail at all: it returns `None`. -/
theorem callback_not_set_amended (p : LearningSpotProfile) (idx : Nat)
    (h1 : p.get_previous_spot_callback = none) :
    p.get_previous_spot idx =
      .error "Previous spot callback was not set properly" ∧
    (p.get_next_content_callback = none → p.get_next_content = .ok none) := by
  constructor
  · rw [LearningSpotProfile.get_previous_spot, h1]
  · intro h2
    rw [LearningSpotProfile.get_next_content, h2]

/-- C8 witness: the amended statement on a profile built with neither
callback. -/
theorem callback_not_set_amended_witness :
    c8Profile.get_previous_spot 0 =
      .error "Previous spot callback was not set properly" ∧
    c8Profile.get_next_content = .ok none :=
  ⟨(callback_not_set_amended c8Profile 0 rfl).1,
   (callback_not_set_amended c8Profile 0 rfl).2 rfl⟩

/-! ### LearningProgression theorems -/

/-- C7 fails on the code: `start_next_activity` on a queue holding one
activity pops it, makes it current and sets its start time, but the
`LearningSpot(content=..., activity_type=..., ...)` constructor call
passes the keyword `activity_type`, which the `LearningSpot` dataclass
of `learning_spot_profile.py` does not accept (the call also omits the
required `timestamp`), so Python raises `TypeError` out of the method:
no learning spot is attached and no activity is returned. -/
theorem start_next_activity_raises :
    start_next_activity
        { upcoming_activities := [demoActivity "der Hund" ["the dog"]] } 5 =
      .typeError "TypeError: got an unexpected keyword argument activity_type"
        { upcoming_activities := [],
          current_activity :=
            some { demoActivity "der Hund" ["the dog"] with start_time := some 5 } } := by
  rfl

theorem gatherByIndex_all_in_range (queue : List LearningActivity) :
    ∀ new_order : List Nat, (∀ i ∈ new_order, i < queue.length) →
      ∃ l, gatherByIndex queue new_order = some l ∧
        l.length = new_order.length ∧
        ∀ k : Nat, l[k]? = (new_order[k]?).bind fun i => queue[i]? := by
  intro new_order
  induction new_order with
  | nil =>
    intro _
    exact ⟨[], rfl, rfl, fun k => by simp⟩
  | cons i rest ih =>
    intro hin
    have hi : i < queue.length := hin i (by simp)
    obtain ⟨l, hl, hlen, hk⟩ := ih fun j hj => hin j (by simp [hj])
    refine ⟨queue[i] :: l, ?_, by simp [hlen], ?_⟩
    · rw [gatherByIndex, List.getElem?_eq_getElem hi, hl]
      rfl
    · intro k
      cases k with
      | zero => simp [List.getElem?_eq_getElem hi]
      | succ k => simpa using hk k

/-- C9 counterexample: `reorder_activities` accepts the index list
`[0, 0]` on a queue of two activities — it validates only the length,
not that `new_order` is a permutation — duplicating the front activity
instead of rejecting the call. -/
theorem reorder_activities_counterexample :
    reorder_activities [demoActivity "a" [], demoActivity "b" []] [0, 0] =
      .ok [demoActivity "a" [], demoActivity "a" []] :=
  rfl

/-- C9 amended: `reorder_activities` validates only that `new_order`
has the exact current queue length.  A length mismatch is a reported,
non-fatal rejection leaving the queue unchanged with no exception; when
the length matches and every index is in range, the queue is reordered
so position `k` holds the activity previously at index `new_order[k]`
(`new_order` need not be a permutation — duplicate indices are
accepted). -/
theorem reorder_activities_amended (queue : List LearningActivity)
    (new_order : List Nat) :
    (new_order.length ≠ queue.length →
      reorder_activities queue new_order = .rejected queue) ∧
    (new_order.length = queue.length →
      (∀ i ∈ new_order, i < queue.length) →
      ∃ l, reorder_activities queue new_order = .ok l ∧
        l.length = new_order.length ∧
        ∀ k : Nat, l[k]? = (new_order[k]?).bind fun i => queue[i]?) := by
  constructor
  · intro hne
    rw [reorder_activities, if_pos hne]
  · intro heq hin
    obtain ⟨l, hl, hlen, hk⟩ := gatherByIndex_all_in_range queue new_order hin
    refine ⟨l, ?_, hlen, hk⟩
    rw [reorder_activities, if_neg (by omega), hl]

/-- C9 witness: the spec's own test — a queue of 3 activities and the
length-2 index list `[1, 0]` — is rejected with the queue unchanged. -/
theorem reorder_activities_amended_witness :
    reorder_activities
        [demoActivity "a" [], demoActivity "b" [], demoActivity "c" []]
        [1, 0] =
      .rejected
        [demoActivity "a" [], demoActivity "b" [], demoActivity "c" []] :=
  (reorder_activities_amended
    [demoActivity "a" [], demoActivity "b" [], demoActivity "c" []]
    [1, 0]).1 (by decide)

/-- C10: `complete_current_activity` on a progression whose
`current_activity` is `None` returns without error and leaves the whole
state — `upcoming_activities`, `completed_activities`,
`activity_history`, `current_activity` and the `LearningMemory`
store — unchanged. -/
theorem complete_current_activity_noop (p : LearningProgression) (now : ℚ)
    (h : p.current_activity = none) :
    complete_current_activity p now = some p := by
  rw [complete_current_activity, h]

/-- C10 witness: the no-op at a freshly initialised progression. -/
theorem complete_current_activity_noop_witness :
    complete_current_activity
        { upcoming_activities := [demoActivity "a" []] } 7 =
      some { upcoming_activities := [demoActivity "a" []] } :=
  complete_current_activity_noop
    { upcoming_activities := [demoActivity "a" []] } 7 rfl

/-! ### LearningMemory bounded-history theorems -/

theorem takeLast_length (n : Nat) (xs : List α) :
    (takeLast n xs).length = min n xs.length := by
  simp only [takeLast, List.length_drop]
  omega

theorem takeLast_of_length_le {n : Nat} {xs : List α} (h : xs.length ≤ n) :
    takeLast n xs = xs := by
  simp [takeLast, Nat.sub_eq_zero_of_le h]

theorem takeLast_map (g : α → β) (n : Nat) (xs : List α) :
    (takeLast n xs).map g = takeLast n (xs.map g) := by
  simp [takeLast, List.map_drop]

theorem takeLast_sublist (n : Nat) (xs : List α) :
    List.Sublist (takeLast n xs) xs :=
  List.drop_sublist _ _

/-- One `_add_historical_snapshot` step preserves the "last
`max_hist` evicted spots, in chronological order" shape of the dict,
when the new spot is strictly newer than everything evicted so far. -/
theorem add_snapshot_spec (max_hist : Nat) (hH : 0 < max_hist)
    (aty : String) (A : List LearningSpot) (e : LearningSpot)
    (hpw : ((A ++ [e]).map LearningSpot.timestamp).Pairwise (· < ·)) :
    _add_historical_snapshot max_hist e aty
        ((takeLast max_hist A).map fun sp =>
          (sp.timestamp, LearningSpotSnapshot.from_learning_spot sp aty)) =
      (takeLast max_hist (A ++ [e])).map fun sp =>
        (sp.timestamp, LearningSpotSnapshot.from_learning_spot sp aty) := by
  set f : LearningSpot → ℚ × LearningSpotSnapshot :=
    fun sp => (sp.timestamp, LearningSpotSnapshot.from_learning_spot sp aty)
    with hf
  have hpw0 := hpw
  rw [List.map_append, List.pairwise_append] at hpw
  obtain ⟨hA, _, hcross⟩ := hpw
  have hlt : ∀ a ∈ A, a.timestamp < e.timestamp := by
    intro a ha
    exact hcross a.timestamp (List.mem_map_of_mem _ ha) e.timestamp (by simp)
  have hsub : List.Sublist (takeLast max_hist A) A := takeLast_sublist _ _
  have hnotin : e.timestamp ∉ dictKeys ((takeLast max_hist A).map f) := by
    simp only [dictKeys, List.map_map]
    intro hmem
    obtain ⟨a, ha, hts⟩ := List.mem_map.mp hmem
    exact absurd hts (ne_of_lt (hlt a (hsub.mem ha)))
  simp only [_add_historical_snapshot, dictSet, if_neg hnotin]
  have hconcat : (takeLast max_hist A).map f ++ [(e.timestamp,
      LearningSpotSnapshot.from_learning_spot e aty)] =
      (takeLast max_hist A ++ [e]).map f := by
    rw [List.map_append]
    rfl
  rw [hconcat]
  by_cases hlen : A.length < max_hist
  · have hA' : takeLast max_hist A = A := takeLast_of_length_le (by omega)
    rw [hA']
    have hcond : ¬ (List.map f (A ++ [e])).length > max_hist := by
      simp only [List.length_map, List.length_append, List.length_singleton]
      omega
    rw [if_neg hcond]
    have hshort : (A ++ [e]).length ≤ max_hist := by
      simp only [List.length_append, List.length_singleton]
      omega
    rw [takeLast_of_length_le hshort]
  · push_neg at hlen
    have hA'len : (takeLast max_hist A).length = max_hist := by
      rw [takeLast_length]; omega
    obtain ⟨a0, A'', hA'⟩ : ∃ a0 A'', takeLast max_hist A = a0 :: A'' := by
      cases h : takeLast max_hist A with
      | nil => rw [h] at hA'len; simp at hA'len; omega
      | cons a0 A'' => exact ⟨a0, A'', rfl⟩
    have hpw' : ((takeLast max_hist A ++ [e]).map
        LearningSpot.timestamp).Pairwise (· < ·) :=
      hpw0.sublist ((hsub.append_right [e]).map _)
    rw [hA'] at hpw'
    rw [List.cons_append, List.map_cons, List.pairwise_cons] at hpw'
    obtain ⟨h0, htail⟩ := hpw'
    have hcond : (List.map f (takeLast max_hist A ++ [e])).length > max_hist := by
      simp only [List.length_map, List.length_append, List.length_singleton,
        hA'len]
      omega
    rw [if_pos hcond]
    have hkeys : dictKeys ((takeLast max_hist A ++ [e]).map f) =
        (takeLast max_hist A ++ [e]).map LearningSpot.timestamp := by
      simp only [dictKeys, List.map_map]
      rfl
    have hsorted : List.Sorted (· ≤ ·)
        ((takeLast max_hist A ++ [e]).map LearningSpot.timestamp) := by
      rw [hA', List.cons_append, List.map_cons]
      exact List.Pairwise.cons (fun t ht => le_of_lt (h0 t ht))
        (htail.imp le_of_lt)
    rw [hkeys, List.Sorted.insertionSort_eq hsorted]
    rw [pyDropLast, if_neg (by omega)]
    have hklen : ((takeLast max_hist A ++ [e]).map
        LearningSpot.timestamp).length = max_hist + 1 := by
      simp [hA'len]
    rw [hklen]
    have htake1 : ((takeLast max_hist A ++ [e]).map
        LearningSpot.timestamp).take (max_hist + 1 - max_hist) =
        [a0.timestamp] := by
      rw [hA', List.cons_append, List.map_cons]
      simp
    rw [htake1]
    rw [hA', List.cons_append, List.map_cons]
    rw [List.filter_cons]
    have hhead : (decide ((f a0).1 ∉ [a0.timestamp])) = false := by
      simp [hf]
    rw [hhead]
    simp only [Bool.false_eq_true, if_false]
    have hrest : List.filter (fun kv => decide (kv.1 ∉ [a0.timestamp]))
        (List.map f (A'' ++ [e])) = List.map f (A'' ++ [e]) := by
      rw [List.filter_eq_self]
      intro kv hkv
      obtain ⟨b, hb, rfl⟩ := List.mem_map.mp hkv
      have hlt0 : a0.timestamp < b.timestamp :=
        h0 b.timestamp (List.mem_map_of_mem _ hb)
      simp only [decide_eq_true_eq, List.mem_singleton]
      exact fun hbe => absurd hbe (ne_of_gt hlt0)
    rw [hrest]
    have hA'' : A'' = A.drop (A.length - max_hist + 1) := by
      have : (takeLast max_hist A).tail = A.drop (A.length - max_hist + 1) := by
        rw [takeLast, List.tail_drop]
      rw [hA'] at this
      simpa using this
    have htarget : takeLast max_hist (A ++ [e]) = A'' ++ [e] := by
      rw [takeLast, List.length_append, List.length_singleton]
      rw [List.drop_append_of_le_length (by omega)]
      rw [hA'']
      congr 1
      congr 1
      omega
    rw [htarget, List.map_append]

theorem runUpdates_spec (max_mem max_hist : Nat) (hH : 0 < max_hist)
    (aty : String) :
    ∀ spots : List LearningSpot,
      (spots.map LearningSpot.timestamp).Pairwise (· < ·) →
      (runUpdates max_mem max_hist aty spots).all_learning_spots =
        spots.reverse.take max_mem ∧
      (runUpdates max_mem max_hist aty spots).historical_snapshots =
        (takeLast max_hist (spots.take (spots.length - max_mem))).map
          fun sp =>
            (sp.timestamp, LearningSpotSnapshot.from_learning_spot sp aty) := by
  intro spots
  induction spots using List.reverseRecOn with
  | nil =>
    intro _
    exact ⟨by simp [runUpdates], by simp [runUpdates, takeLast]⟩
  | append_singleton init sp ih =>
    intro hpw
    have hpwi : (init.map LearningSpot.timestamp).Pairwise (· < ·) :=
      hpw.sublist ((List.sublist_append_left init [sp]).map _)
    obtain ⟨hall, hsnap⟩ := ih hpwi
    have hrun : runUpdates max_mem max_hist aty (init ++ [sp]) =
        update_all_learning_spots max_mem max_hist sp aty
          (runUpdates max_mem max_hist aty init) := by
      simp [runUpdates, List.foldl_append]
    have hRlen : (init ++ [sp]).reverse.length = init.length + 1 := by simp
    have hallcons : sp :: (runUpdates max_mem max_hist aty
        init).all_learning_spots =
        (init ++ [sp]).reverse.take (max_mem + 1) := by
      rw [hall, List.reverse_append]
      rfl
    rw [hrun, update_all_learning_spots]
    by_cases hk : init.length < max_mem
    · have hcond : ¬ (sp :: (runUpdates max_mem max_hist aty
          init).all_learning_spots).length > max_mem := by
        simp only [List.length_cons, hall, List.length_take,
          List.length_reverse]
        omega
      rw [if_neg hcond]
      constructor
      · show sp :: (runUpdates max_mem max_hist aty
            init).all_learning_spots = _
        rw [hallcons, List.take_of_length_le (by omega),
          List.take_of_length_le (by omega)]
      · show (runUpdates max_mem max_hist aty init).historical_snapshots = _
        rw [hsnap]
        have h1 : init.length - max_mem = 0 := by omega
        have h2 : (init ++ [sp]).length - max_mem = 0 := by
          simp only [List.length_append, List.length_singleton]
          omega
        rw [h1, h2]
        rfl
    · push_neg at hk
      have hcond : (sp :: (runUpdates max_mem max_hist aty
          init).all_learning_spots).length > max_mem := by
        simp only [List.length_cons, hall, List.length_take,
          List.length_reverse]
        omega
      rw [if_pos hcond]
      have hmemlt : max_mem < (init ++ [sp]).reverse.length := by omega
      have hidx : init.length + 1 - 1 - max_mem < (init ++ [sp]).length := by
        simp only [List.length_append, List.length_singleton]
        omega
      have hgetrev : (init ++ [sp]).reverse[max_mem] =
          (init ++ [sp])[init.length + 1 - 1 - max_mem] := by
        have := List.getElem_reverse (l := init ++ [sp]) (i := max_mem)
          (h := by simpa using hmemlt)
        simpa using this
      constructor
      · show (sp :: (runUpdates max_mem max_hist aty
            init).all_learning_spots).take max_mem = _
        rw [hallcons, List.take_take]
        congr 1
        omega
      · show ((sp :: (runUpdates max_mem max_hist aty
            init).all_learning_spots).drop max_mem).foldl _ _ = _
        rw [hallcons]
        rw [List.drop_take]
        rw [List.drop_eq_getElem_cons hmemlt]
        have hone : max_mem + 1 - max_mem = 1 := by omega
        rw [hone]
        rw [List.take_succ_cons, List.take_zero]
        rw [List.foldl_cons, List.foldl_nil]
        rw [hsnap]
        set e := (init ++ [sp]).reverse[max_mem] with he
        have hA : init.take (init.length - max_mem) =
            (init ++ [sp]).take (init.length - max_mem) :=
          (List.take_append_of_le_length (by omega)).symm
        have heidx : init.length - max_mem < (init ++ [sp]).length := by
          simp only [List.length_append, List.length_singleton]
          omega
        have hee : e = (init ++ [sp])[init.length - max_mem] :=
          hgetrev
        have hAe : init.take (init.length - max_mem) ++ [e] =
            (init ++ [sp]).take (init.length - max_mem + 1) := by
          rw [List.take_succ, hA]
          congr 1
          rw [List.getElem?_eq_getElem heidx]
          rw [hee]
          rfl
        have hpwAe : ((init.take (init.length - max_mem) ++ [e]).map
            LearningSpot.timestamp).Pairwise (· < ·) := by
          rw [hAe]
          exact hpw.sublist ((List.take_sublist _ _).map _)
        have := add_snapshot_spec max_hist hH aty
          (init.take (init.length - max_mem)) e hpwAe
        rw [this, hAe]
        have hlen2 : (init ++ [sp]).length - max_mem =
            init.length - max_mem + 1 := by
          simp only [List.length_append, List.length_singleton]
          omega
        rw [hlen2]

/-- C4: starting from an empty `LearningMemory`, after a sequence of
calls to `update_all_learning_spots` with spots bearing strictly
increasing distinct timestamps, of length `N > max_mem`:
`all_learning_spots` holds exactly `max_mem` spots,
`_historical_snapshots` holds `min (N - max_mem) max_hist` entries, and
the retained snapshot keys are exactly the most recent `max_hist`
evicted creation times (oldest keys deleted first; the key list is in
increasing evicted order).  `max_mem` and `max_hist` stand for the
class attributes `max_memory_size = 1000` and
`max_historical_snapshots = 5000`. -/
theorem bounded_history_invariant (max_mem max_hist : Nat)
    (hH : 0 < max_hist) (aty : String) (spots : List LearningSpot)
    (hinc : (spots.map LearningSpot.timestamp).Chain' (· < ·))
    (hN : max_mem < spots.length) :
    (runUpdates max_mem max_hist aty spots).all_learning_spots.length =
      max_mem ∧
    (runUpdates max_mem max_hist aty spots).historical_snapshots.length =
      min (spots.length - max_mem) max_hist ∧
    dictKeys (runUpdates max_mem max_hist aty spots).historical_snapshots =
      takeLast max_hist ((spots.map LearningSpot.timestamp).take
        (spots.length - max_mem)) := by
  have hpw : (spots.map LearningSpot.timestamp).Pairwise (· < ·) :=
    List.chain'_iff_pairwise.mp hinc
  obtain ⟨hall, hsnap⟩ := runUpdates_spec max_mem max_hist hH aty spots hpw
  refine ⟨?_, ?_, ?_⟩
  · rw [hall]
    simp only [List.length_take, List.length_reverse]
    omega
  · rw [hsnap, List.length_map, takeLast_length, List.length_take]
    omega
  · rw [hsnap]
    simp only [dictKeys, List.map_map]
    have hcomp : (Prod.fst ∘ fun sp =>
        (sp.timestamp, LearningSpotSnapshot.from_learning_spot sp aty)) =
        LearningSpot.timestamp := rfl
    rw [hcomp, takeLast_map, List.map_take]

/-- C4 witness: seven inserts with caps `max_mem = 2`, `max_hist = 3`;
two spots stay live, three snapshots remain, keyed by the three most
recent evicted times. -/
theorem bounded_history_invariant_witness :
    (runUpdates 2 3 "vocabulary_builder"
      c4Spots).all_learning_spots.length = 2 ∧
    (runUpdates 2 3 "vocabulary_builder"
      c4Spots).historical_snapshots.length = min (c4Spots.length - 2) 3 ∧
    dictKeys (runUpdates 2 3 "vocabulary_builder"
      c4Spots).historical_snapshots =
      takeLast 3 ((c4Spots.map LearningSpot.timestamp).take
        (c4Spots.length - 2)) :=
  bounded_history_invariant 2 3 (by decide) "vocabulary_builder" c4Spots
    (by norm_num [c4Spots, List.chain'_cons, List.chain'_singleton])
    (by decide)
